import Mathlib

/-!
# plugin_iaas: the VM inventory bridge (`main.go`)

A shallow embedding of `main.go`.  Go strings are modelled as Lean `String`s
(every VM name reaching the reconciliation loop comes out of `json.Unmarshal`,
which only produces valid UTF-8), Go slices as `List`s.
-/

namespace PluginIaas

/-! ## Data model -/

/-- The Go type `IaasConfig` (also the type of the global `g_IaasConfig`). -/
structure IaasConfig where
  Url : String
  Port : String
deriving DecidableEq, Repr

/-- The Go type `VmInfo`. -/
structure VmInfo where
  Ico : String
  Name : String
  DisplayName : String
  Status : String
  Locked : Bool
deriving DecidableEq, Repr

/-- The `Result` member of the anonymous `response` struct of `ListRunningVm`. -/
structure GetListResult where
  DownloadingVmNames : List String
  AvailableVMNames : List String
  BootingVmNames : List String
  RunningVmNames : List String
deriving DecidableEq, Repr

/-! ## `stringInSlice` and `strings.Contains` -/

/-- The Go function `stringInSlice`: a linear scan that returns at the first hit. -/
def stringInSlice (a : String) : List String → Bool
  | [] => false
  | b :: list => if b = a then true else stringInSlice a list

/-- Does `sub` start the character sequence `s`? (`strings.HasPrefix`) -/
def hasPrefixChars : List Char → List Char → Bool
  | _, [] => true
  | [], _ :: _ => false
  | c :: cs, p :: ps => if c = p then hasPrefixChars cs ps else false

/-- Does `sub` occur somewhere in the character sequence `s`? -/
def containsChars : List Char → List Char → Bool
  | [], sub => hasPrefixChars [] sub
  | c :: cs, sub => if hasPrefixChars (c :: cs) sub then true else containsChars cs sub

/-- The Go library function `strings.Contains`.  Go searches bytes; for a valid
UTF-8 subject and an ASCII pattern that is the same as searching characters. -/
def stringsContains (s substr : String) : Bool :=
  containsChars s.data substr.data

/-! ## The reconciliation loop of `ListRunningVm` (lines 124-151) -/

/-- The function-level variables the loop of `ListRunningVm` reads and writes:
they are declared once, before the loop, so a value assigned in one iteration is
still there in the next. -/
structure LoopVars where
  vmList : List VmInfo
  icon : String
  locked : Bool
  status : String
  displayName : String
deriving DecidableEq, Repr

/-- Go zero values of the `var (...)` block of `ListRunningVm`. -/
def LoopVars.zero : LoopVars :=
  { vmList := [], icon := "", locked := false, status := "", displayName := "" }

/-- One iteration of `for _, vmName := range response.Result.AvailableVMNames`. -/
def loopBody (res : GetListResult) (v : LoopVars) (vmName : String) : LoopVars :=
  let v1 : LoopVars :=
    if stringsContains vmName "windows" then
      { v with icon := "windows", locked := false, displayName := "Windows Applications" }
    else
      { v with icon := "apps", locked := true, displayName := "Haptic" }
  let v2 : LoopVars :=
    if stringInSlice vmName res.RunningVmNames then
      { v1 with status := "running" }
    else if stringInSlice vmName res.BootingVmNames then
      { v1 with status := "booting" }
    else if stringInSlice vmName res.DownloadingVmNames then
      { v1 with status := "download" }
    else if stringInSlice vmName res.AvailableVMNames then
      { v1 with status := "available" }
    else
      v1
  { v2 with
    vmList := v2.vmList ++
      [{ Ico := v2.icon, Name := vmName, DisplayName := v2.displayName,
         Status := v2.status, Locked := v2.locked }] }

/-- The whole loop, started from the zero values, on a decoded response. -/
def reconcileLoop (res : GetListResult) : LoopVars :=
  res.AvailableVMNames.foldl (loopBody res) LoopVars.zero

/-- The records `ListRunningVm` builds from the four name lists of the backend. -/
def reconcile (available running booting downloading : List String) : List VmInfo :=
  (reconcileLoop
    { DownloadingVmNames := downloading, AvailableVMNames := available,
      BootingVmNames := booting, RunningVmNames := running }).vmList

/-- The record one iteration appends for `vmName` when the name is found in one
of the four lists: a closed form of `loopBody` that reads no loop variable. -/
def recordFor (res : GetListResult) (vmName : String) : VmInfo :=
  { Ico := if stringsContains vmName "windows" then "windows" else "apps"
    Name := vmName
    DisplayName := if stringsContains vmName "windows" then "Windows Applications" else "Haptic"
    Status :=
      if stringInSlice vmName res.RunningVmNames then "running"
      else if stringInSlice vmName res.BootingVmNames then "booting"
      else if stringInSlice vmName res.DownloadingVmNames then "download"
      else "available"
    Locked := if stringsContains vmName "windows" then false else true }

/-! ## A model of JSON texts (`encoding/json`) -/

/-- A parsed JSON text. -/
inductive Json where
  | null : Json
  | bool (b : Bool) : Json
  | num (lit : List Char) : Json
  | str (s : String) : Json
  | arr (items : List Json) : Json
  | obj (members : List (String × Json)) : Json

def isJsonSpace (c : Char) : Bool :=
  c = ' ' || c = '\t' || c = '\n' || c = '\r'

def skipSpace : List Char → List Char
  | [] => []
  | c :: cs => if isJsonSpace c then skipSpace cs else c :: cs

def hexVal (c : Char) : Option Nat :=
  if '0' ≤ c ∧ c ≤ '9' then some (c.toNat - 48)
  else if 'a' ≤ c ∧ c ≤ 'f' then some (c.toNat - 87)
  else if 'A' ≤ c ∧ c ≤ 'F' then some (c.toNat - 55)
  else none

def hex4 (a b c d : Char) : Option Nat :=
  match hexVal a, hexVal b, hexVal c, hexVal d with
  | some x, some y, some z, some t => some (((x * 16 + y) * 16 + z) * 16 + t)
  | _, _, _, _ => none

def replacementChar : Char := Char.ofNat 0xFFFD

/-- Emit a pending unpaired high surrogate as U+FFFD. -/
def flushPending (pending : Option Nat) (acc : List Char) : List Char :=
  match pending with
  | none => acc
  | some _ => acc ++ [replacementChar]

def scanString : Option Nat → List Char → List Char → Option (String × List Char)
  | _, _, [] => none
  | pending, acc, c :: cs =>
    if c = '\x22' then some (String.mk (flushPending pending acc), cs)
    else if c.toNat < 32 then none
    else if c = '\x5c' then
      match cs with
      | [] => none
      | e :: rest =>
        if e = 'u' then
          match rest with
          | h1 :: h2 :: h3 :: h4 :: rest4 =>
            match hex4 h1 h2 h3 h4 with
            | none => none
            | some u =>
              if 0xD800 ≤ u ∧ u < 0xDC00 then
                scanString (some u) (flushPending pending acc) rest4
              else if 0xDC00 ≤ u ∧ u < 0xE000 then
                match pending with
                | some hi =>
                  scanString none
                    (acc ++ [Char.ofNat (0x10000 + (hi - 0xD800) * 0x400 + (u - 0xDC00))]) rest4
                | none => scanString none (acc ++ [replacementChar]) rest4
              else scanString none (flushPending pending acc ++ [Char.ofNat u]) rest4
          | _ => none
        else
          let lit : Option Char :=
            if e = '\x22' then some '\x22'
            else if e = '\x5c' then some '\x5c'
            else if e = '/' then some '/'
            else if e = 'b' then some (Char.ofNat 8)
            else if e = 'f' then some (Char.ofNat 12)
            else if e = 'n' then some '\n'
            else if e = 'r' then some '\r'
            else if e = 't' then some '\t'
            else none
          match lit with
          | none => none
          | some x => scanString none (flushPending pending acc ++ [x]) rest
    else scanString none (flushPending pending acc ++ [c]) cs


def isDigit (c : Char) : Bool := decide ('0' ≤ c ∧ c ≤ '9')

/-- Split off the longest run of decimal digits. -/
def spanDigits : List Char → List Char × List Char
  | [] => ([], [])
  | c :: cs =>
    if isDigit c then ((spanDigits cs).1.cons c, (spanDigits cs).2) else ([], c :: cs)

/-- The integer part of a JSON number: `0`, or a non-zero digit and more digits. -/
def scanIntPart : List Char → Option (List Char × List Char)
  | [] => none
  | c :: cs =>
    if c = '0' then some (['0'], cs)
    else if isDigit c then some (c :: (spanDigits cs).1, (spanDigits cs).2)
    else none

/-- An optional fraction: `.` and at least one digit. -/
def scanFraction : List Char → Option (List Char × List Char)
  | '.' :: cs =>
    match spanDigits cs with
    | ([], _) => none
    | (ds, rest) => some ('.' :: ds, rest)
  | cs => some ([], cs)

/-- An optional exponent: `e` or `E`, an optional sign, at least one digit. -/
def scanExponent : List Char → Option (List Char × List Char)
  | [] => some ([], [])
  | c :: cs =>
    if c = 'e' ∨ c = 'E' then
      let signed : List Char × List Char :=
        match cs with
        | [] => ([], [])
        | s :: cs1 => if s = '+' ∨ s = '-' then ([s], cs1) else ([], s :: cs1)
      match spanDigits signed.2 with
      | ([], _) => none
      | (ds, rest) => some (c :: (signed.1 ++ ds), rest)
    else some ([], c :: cs)

def scanNumber (cs : List Char) : Option (List Char × List Char) :=
  let signed : List Char × List Char :=
    match cs with
    | '-' :: cs1 => (['-'], cs1)
    | _ => ([], cs)
  match scanIntPart signed.2 with
  | none => none
  | some (ip, r1) =>
    match scanFraction r1 with
    | none => none
    | some (fp, r2) =>
      match scanExponent r2 with
      | none => none
      | some (ep, r3) => some (signed.1 ++ ip ++ fp ++ ep, r3)

mutual
/-- One JSON value, after optional white space. -/
def parseValue : Nat → List Char → Option (Json × List Char)
  | 0, _ => none
  | fuel + 1, cs =>
    match skipSpace cs with
    | [] => none
    | c :: rest =>
      if c = '\x7b' then
        match skipSpace rest with
        | [] => none
        | d :: rest1 =>
          if d = '\x7d' then some (Json.obj [], rest1)
          else parseMembers fuel [] (d :: rest1)
      else if c = '[' then
        match skipSpace rest with
        | [] => none
        | d :: rest1 =>
          if d = ']' then some (Json.arr [], rest1)
          else parseItems fuel [] (d :: rest1)
      else if c = '\x22' then
        match scanString none [] rest with
        | none => none
        | some (s, rest1) => some (Json.str s, rest1)
      else if c = 't' then
        match rest with
        | 'r' :: 'u' :: 'e' :: rest1 => some (Json.bool true, rest1)
        | _ => none
      else if c = 'f' then
        match rest with
        | 'a' :: 'l' :: 's' :: 'e' :: rest1 => some (Json.bool false, rest1)
        | _ => none
      else if c = 'n' then
        match rest with
        | 'u' :: 'l' :: 'l' :: rest1 => some (Json.null, rest1)
        | _ => none
      else
        match scanNumber (c :: rest) with
        | none => none
        | some (lit, rest1) => some (Json.num lit, rest1)
/-- The items of an array after `[`, up to and including `]`. -/
def parseItems : Nat → List Json → List Char → Option (Json × List Char)
  | 0, _, _ => none
  | fuel + 1, acc, cs =>
    match parseValue fuel cs with
    | none => none
    | some (v, rest) =>
      match skipSpace rest with
      | [] => none
      | d :: rest1 =>
        if d = ',' then parseItems fuel (acc ++ [v]) rest1
        else if d = ']' then some (Json.arr (acc ++ [v]), rest1)
        else none
/-- The members of an object after the opening brace, up to and including the
closing brace. -/
def parseMembers : Nat → List (String × Json) → List Char → Option (Json × List Char)
  | 0, _, _ => none
  | fuel + 1, acc, cs =>
    match skipSpace cs with
    | [] => none
    | q :: rest =>
      if q = '\x22' then
        match scanString none [] rest with
        | none => none
        | some (k, rest1) =>
          match skipSpace rest1 with
          | [] => none
          | colon :: rest2 =>
            if colon = ':' then
              match parseValue fuel rest2 with
              | none => none
              | some (v, rest3) =>
                match skipSpace rest3 with
                | [] => none
                | d :: rest4 =>
                  if d = ',' then parseMembers fuel (acc ++ [(k, v)]) rest4
                  else if d = '\x7d' then some (Json.obj (acc ++ [(k, v)]), rest4)
                  else none
            else none
      else none
end

/-- A whole JSON text: one value, white space around it, nothing else
(`checkValid` of `encoding/json`). -/
def parseJson (data : String) : Option Json :=
  match parseValue (data.data.length + 1) data.data with
  | none => none
  | some (v, rest) =>
    match skipSpace rest with
    | [] => some v
    | _ :: _ => none


/-! ## Decoding into the Go target types (`json.Unmarshal`) -/

/-- A Go `map[string]string`; `none` is the nil map. -/
abbrev GoMap := Option (List (String × String))

def assocGet : List (String × String) → String → String
  | [], _ => ""
  | (k, v) :: m, key => if k = key then v else assocGet m key

def assocSet : List (String × String) → String → String → List (String × String)
  | [], key, val => [(key, val)]
  | (k, v) :: m, key, val => if k = key then (k, val) :: m else (k, v) :: assocSet m key val

/-- Simple case folding restricted to what can equal an ASCII field name:
ASCII letters, U+017F (long s) and U+212A (Kelvin sign). -/
def foldRune (c : Char) : Char :=
  if c = Char.ofNat 0x17F then 'S'
  else if c = Char.ofNat 0x212A then 'K'
  else if 'a' ≤ c ∧ c ≤ 'z' then Char.ofNat (c.toNat - 32)
  else c

/-- Does the object key `key` select the struct field `field`? -/
def equalFold (field key : String) : Bool :=
  decide (field.data.map foldRune = key.data.map foldRune)

/-- Decode an object member by member into a struct value; `null` leaves the
value as it is, any other JSON value is a type error. -/
def decodeObject {α : Type} (step : α → String → Json → Except String α) (cur : α) :
    Json → Except String α
  | Json.null => Except.ok cur
  | Json.obj members => members.foldlM (fun a kv => step a kv.1 kv.2) cur
  | _ => Except.error "json: cannot unmarshal value into Go value of type struct"

def decodeBool (cur : Bool) : Json → Except String Bool
  | Json.null => Except.ok cur
  | Json.bool b => Except.ok b
  | _ => Except.error "json: cannot unmarshal value into Go value of type bool"

def decodeString (cur : String) : Json → Except String String
  | Json.null => Except.ok cur
  | Json.str s => Except.ok s
  | _ => Except.error "json: cannot unmarshal value into Go value of type string"

def decodeStringSlice : Json → Except String (List String)
  | Json.null => Except.ok []
  | Json.arr items => items.mapM (decodeString "")
  | _ => Except.error "json: cannot unmarshal value into Go value of type []string"

def decodeStringMap (cur : GoMap) : Json → Except String GoMap
  | Json.null => Except.ok none
  | Json.obj members =>
    (members.foldlM
      (fun m kv => (decodeString "" kv.2).map (fun v => assocSet m kv.1 v))
      (cur.getD [])).map some
  | _ => Except.error "json: cannot unmarshal value into Go value of type map[string]string"

def digitsValue (ds : List Char) : Nat :=
  ds.foldl (fun n c => n * 10 + (c.toNat - 48)) 0

def decodeInt (cur : Int) : Json → Except String Int
  | Json.null => Except.ok cur
  | Json.num lit =>
    match lit with
    | '-' :: ds =>
      if ds.all isDigit ∧ digitsValue ds ≤ 2 ^ 63 then Except.ok (- (digitsValue ds : Int))
      else Except.error "json: cannot unmarshal number into Go value of type int"
    | ds =>
      if ds.all isDigit ∧ digitsValue ds < 2 ^ 63 then Except.ok (digitsValue ds : Int)
      else Except.error "json: cannot unmarshal number into Go value of type int"
  | _ => Except.error "json: cannot unmarshal value into Go value of type int"

/-! ## Encoding (`json.Marshal`) -/

def hexDigit (n : Nat) : Char :=
  if n < 10 then Char.ofNat (48 + n) else Char.ofNat (87 + n)

/-- One character of a string as `json.Marshal` writes it inside the quotes. -/
def escapeRune (c : Char) : List Char :=
  if c = '\x22' then ['\x5c', '\x22']
  else if c = '\x5c' then ['\x5c', '\x5c']
  else if c = '\n' then ['\x5c', 'n']
  else if c = '\r' then ['\x5c', 'r']
  else if c = '\t' then ['\x5c', 't']
  else if c.toNat < 32 ∨ c = '<' ∨ c = '>' ∨ c = '&' then
    ['\x5c', 'u', '0', '0', hexDigit (c.toNat / 16), hexDigit (c.toNat % 16)]
  else if c = Char.ofNat 0x2028 then ['\x5c', 'u', '2', '0', '2', '8']
  else if c = Char.ofNat 0x2029 then ['\x5c', 'u', '2', '0', '2', '9']
  else [c]

def escapeRunes : List Char → List Char
  | [] => []
  | c :: cs => escapeRune c ++ escapeRunes cs

def quoteJson (s : String) : String :=
  String.mk ('\x22' :: (escapeRunes s.data ++ ['\x22']))

def decimalDigits : Nat → Nat → List Char
  | 0, _ => []
  | fuel + 1, n =>
    if n < 10 then [Char.ofNat (48 + n)]
    else decimalDigits fuel (n / 10) ++ [Char.ofNat (48 + n % 10)]

def formatInt : Int → String
  | Int.ofNat n => String.mk (decimalDigits (n + 1) n)
  | Int.negSucc n => String.mk ('-' :: decimalDigits (n + 2) (n + 1))

def joinWith (sep : String) : List String → String
  | [] => ""
  | [a] => a
  | a :: b :: rest => a ++ sep ++ joinWith sep (b :: rest)

/-- Lexicographic order on keys (`json.Marshal` writes map keys sorted). -/
def charsLe : List Char → List Char → Bool
  | [], _ => true
  | _ :: _, [] => false
  | a :: as, b :: bs => if a = b then charsLe as bs else decide (a < b)

def insertByKey (kv : String × String) : List (String × String) → List (String × String)
  | [] => [kv]
  | x :: xs => if charsLe kv.1.data x.1.data then kv :: x :: xs else x :: insertByKey kv xs

def sortByKey : List (String × String) → List (String × String)
  | [] => []
  | x :: xs => insertByKey x (sortByKey xs)

def encodeMap : GoMap → String
  | none => "null"
  | some m =>
    "\x7b" ++ joinWith "," ((sortByKey m).map (fun kv => quoteJson kv.1 ++ ":" ++ quoteJson kv.2))
      ++ "\x7d"

def encodeVmInfo (v : VmInfo) : String :=
  "\x7b\"Ico\":" ++ quoteJson v.Ico ++ ",\"Name\":" ++ quoteJson v.Name
    ++ ",\"DisplayName\":" ++ quoteJson v.DisplayName
    ++ ",\"Status\":" ++ quoteJson v.Status
    ++ ",\"Locked\":" ++ (if v.Locked then "true" else "false") ++ "\x7d"

/-- The text of `json.Marshal(vmList)`: a slice nothing was appended to is nil
and is written `null`. -/
def encodeVmList : List VmInfo → String
  | [] => "null"
  | v :: vs => "[" ++ joinWith "," ((v :: vs).map encodeVmInfo) ++ "]"

/-- The map literal `jsonRpcRequest` hands to `json.Marshal`. -/
structure RpcRequest where
  jsonrpc : String
  method : String
  id : Int
  params : List GoMap
deriving DecidableEq, Repr

def encodeRequest (r : RpcRequest) : String :=
  "\x7b\"id\":" ++ formatInt r.id ++ ",\"jsonrpc\":" ++ quoteJson r.jsonrpc
    ++ ",\"method\":" ++ quoteJson r.method
    ++ ",\"params\":[" ++ joinWith "," (r.params.map encodeMap) ++ "]\x7d"

/-! ## Process model -/

/-- How a call of a Go function ends: it returns to its caller, the process
terminates (`os.Exit`, `log.Fatalf`), or a run-time panic is raised. -/
inductive Outcome (α : Type) where
  | returned (a : α) : Outcome α
  | exited (code : Int) : Outcome α
  | panicked (msg : String) : Outcome α
deriving DecidableEq, Repr

/-- Sequencing of Go statements: nothing after an exit or a panic runs. -/
def Outcome.bind {α β : Type} : Outcome α → (α → Outcome β) → Outcome β
  | Outcome.returned a, f => f a
  | Outcome.exited code, _ => Outcome.exited code
  | Outcome.panicked msg, _ => Outcome.panicked msg

instance : Monad Outcome where
  pure := Outcome.returned
  bind := Outcome.bind

/-- The Go call `log.Printf`: writes a line to standard error and returns. -/
def logPrintf (_msg : String) : Outcome Unit := Outcome.returned ()

/-- The Go call `os.Exit`. -/
def osExit (code : Int) : Outcome Unit := Outcome.exited code

/-- The Go call `log.Fatalf`: `log.Printf` followed by `os.Exit(1)`. -/
def logFatalf (msg : String) : Outcome Unit :=
  Outcome.bind (logPrintf msg) (fun _ => osExit 1)

/-- The Go expression `m[key]`: the zero value on a missing key or a nil map. -/
def mapIndex (m : GoMap) (key : String) : String :=
  match m with
  | none => ""
  | some entries => assocGet entries key

/-- The Go statement `m[key] = val`: panics on a nil map. -/
def mapAssign (m : GoMap) (key val : String) : Outcome GoMap :=
  match m with
  | none => Outcome.panicked "assignment to entry in nil map"
  | some entries => Outcome.returned (some (assocSet entries key val))

/-- An HTTP response as far as `jsonRpcRequest` looks at it: what
`ioutil.ReadAll(resp.Body)` gives. -/
structure HttpResponse where
  Body : Except String String

/-- The anonymous `response` struct of `ListRunningVm`. -/
structure GetListResponse where
  Result : GetListResult
  Error : String
  Id : Int

/-- The library calls of `main.go`, as the program sees them: the results of
`json.Marshal`, `http.Post`, `json.Unmarshal` at each target type used, and
`nan.NewExitCode(code, message).ToJson()` of the `libnan` package.  An
`Except.error e` is a non-nil Go `error` with `e = err.Error()`. -/
structure World where
  jsonMarshalRequest : RpcRequest → Except String String
  httpPost : String → String → String → Except String HttpResponse
  jsonUnmarshalConfig : String → Except String GoMap
  jsonUnmarshalString : String → Except String String
  jsonUnmarshalSuccess : String → Except String Bool
  jsonUnmarshalGetList : String → Except String GetListResponse
  jsonMarshalVmList : List VmInfo → String
  exitCodeToJson : Int → String → String

/-- What a plugin method hands back: the string stored in `*_outMsg` and the
returned `error` (`none` is nil). -/
structure Reply where
  outMsg : String
  err : Option String
deriving DecidableEq, Repr

/-! ## The functions of `main.go` -/

/-- The Go function `jsonRpcRequest`; the pair is its `(string, error)` result. -/
def jsonRpcRequest (w : World) (url method : String) (param : GoMap) :
    Outcome (String × Option String) :=
  match w.jsonMarshalRequest
      { jsonrpc := "2.0", method := method, id := 1, params := [param] } with
  | Except.error err => do
    logFatalf ("Marshal: " ++ err)
    return ("", some err)
  | Except.ok data =>
    match w.httpPost url "application/json" data with
    | Except.error err => do
      logFatalf ("Post: " ++ err)
      return ("", some err)
    | Except.ok resp =>
      match resp.Body with
      | Except.error err => do
        logFatalf ("ReadAll: " ++ err)
        return ("", some err)
      | Except.ok body => return (body, none)

/-- The method `Iaas.Configure`.  `g` is the global `g_IaasConfig` before the
call and `outMsg` the string `_outMsg` points to; the result carries the global
after the call. -/
def Configure (w : World) (g : IaasConfig) (jsonConfig : String) (outMsg : String) :
    Outcome (IaasConfig × Reply) :=
  match w.jsonUnmarshalConfig jsonConfig with
  | Except.error err => do
    let r := "ERROR: failed to unmarshal Iaas Plugin configuration : " ++ err
    logPrintf r
    osExit 0
    return (g, { outMsg := r, err := none })
  | Except.ok iaasConfig =>
    return ({ Url := mapIndex iaasConfig "Url", Port := mapIndex iaasConfig "Port" },
            { outMsg := outMsg, err := none })

/-- The method `Iaas.ListRunningVm`. -/
def ListRunningVm (w : World) (g : IaasConfig) (_jsonParams : String) : Outcome Reply := do
  let (jsonResponse, err) ← jsonRpcRequest w (g.Url ++ ":" ++ g.Port) "Iaas.GetList" none
  match err with
  | some e => do
    let message := "ERROR: failed to contact Iaas API : " ++ e
    logPrintf message
    return { outMsg := w.exitCodeToJson 1 message, err := none }
  | none =>
    match w.jsonUnmarshalGetList jsonResponse with
    | Except.error e => do
      let message := "ERROR: failed to unmarshal Iaas API response : " ++ e
      logPrintf message
      return { outMsg := w.exitCodeToJson 0 message, err := none }
    | Except.ok response =>
      return { outMsg := w.jsonMarshalVmList (reconcileLoop response.Result).vmList,
               err := none }

/-- The method `Iaas.DownloadVm`. -/
def DownloadVm (w : World) (g : IaasConfig) (jsonParams : String) : Outcome Reply := do
  let params : GoMap := some [("vmname", jsonParams)]
  let (jsonResponse, err) ← jsonRpcRequest w (g.Url ++ ":" ++ g.Port) "Iaas.Download" params
  match err with
  | some e => do
    let message := "ERROR: failed to contact Iaas API : " ++ e
    logPrintf message
    return { outMsg := w.exitCodeToJson 1 message, err := none }
  | none =>
    match w.jsonUnmarshalSuccess jsonResponse with
    | Except.error e => do
      let message := "ERROR: failed to unmarshal Iaas API response : " ++ e
      logPrintf message
      return { outMsg := w.exitCodeToJson 0 message, err := none }
    | Except.ok success =>
      if success = true then return { outMsg := "true", err := none }
      else return { outMsg := "false", err := none }

/-- The method `Iaas.StartVm`. -/
def StartVm (w : World) (g : IaasConfig) (jsonParams : String) : Outcome Reply := do
  let params : GoMap := some [("name", jsonParams)]
  let (jsonResponse, err) ← jsonRpcRequest w (g.Url ++ ":" ++ g.Port) "Iaas.Start" params
  match err with
  | some e => do
    let message := "ERROR: failed to contact Iaas API : " ++ e
    logPrintf message
    return { outMsg := w.exitCodeToJson 1 message, err := none }
  | none =>
    match w.jsonUnmarshalSuccess jsonResponse with
    | Except.error e => do
      let message := "ERROR: failed to unmarshal Iaas API response : " ++ e
      logPrintf message
      return { outMsg := w.exitCodeToJson 0 message, err := none }
    | Except.ok success =>
      if success = true then return { outMsg := "true", err := none }
      else return { outMsg := "false", err := none }

/-- The method `Iaas.StopVm`.  `params` is declared without a value, so it is
the nil map when `params["vmname"] = vmName` runs. -/
def StopVm (w : World) (g : IaasConfig) (jsonParams : String) : Outcome Reply :=
  let params : GoMap := none
  match w.jsonUnmarshalString jsonParams with
  | Except.error e => do
    let message := "ERROR: failed to unmarshal Iaas.AccountParams : " ++ e
    logPrintf message
    return { outMsg := w.exitCodeToJson 0 message, err := none }
  | Except.ok vmName => do
    let params ← mapAssign params "vmname" vmName
    let (body, err) ← jsonRpcRequest w g.Url "Iaas.Stop" params
    return { outMsg := body, err := err }

/-! ## A concrete world: `encoding/json` over a given HTTP server -/

def syntaxError : String := "invalid character looking for beginning of value"

/-- The call `json.Unmarshal` into a nil `map[string]string`. -/
def goUnmarshalConfig (data : String) : Except String GoMap :=
  match parseJson data with
  | none => Except.error syntaxError
  | some j => decodeStringMap none j

/-- The call `json.Unmarshal` into an empty `string`. -/
def goUnmarshalString (data : String) : Except String String :=
  match parseJson data with
  | none => Except.error syntaxError
  | some j => decodeString "" j

/-- The call `json.Unmarshal` into a zero `struct { Result struct { Success bool } }`. -/
def goUnmarshalSuccess (data : String) : Except String Bool :=
  match parseJson data with
  | none => Except.error syntaxError
  | some j =>
    decodeObject
      (fun cur k v =>
        if equalFold "Result" k then
          decodeObject
            (fun cur1 k1 v1 => if equalFold "Success" k1 then decodeBool cur1 v1 else Except.ok cur1)
            cur v
        else Except.ok cur)
      false j

def decodeGetListResult (cur : GetListResult) (k : String) (v : Json) :
    Except String GetListResult :=
  if equalFold "DownloadingVmNames" k then
    (decodeStringSlice v).map (fun l => { cur with DownloadingVmNames := l })
  else if equalFold "AvailableVMNames" k then
    (decodeStringSlice v).map (fun l => { cur with AvailableVMNames := l })
  else if equalFold "BootingVmNames" k then
    (decodeStringSlice v).map (fun l => { cur with BootingVmNames := l })
  else if equalFold "RunningVmNames" k then
    (decodeStringSlice v).map (fun l => { cur with RunningVmNames := l })
  else Except.ok cur

/-- The call `json.Unmarshal` into the zero `response` struct of `ListRunningVm`. -/
def goUnmarshalGetList (data : String) : Except String GetListResponse :=
  match parseJson data with
  | none => Except.error syntaxError
  | some j =>
    decodeObject
      (fun cur k v =>
        if equalFold "Result" k then
          (decodeObject decodeGetListResult cur.Result v).map (fun r => { cur with Result := r })
        else if equalFold "Error" k then
          (decodeString cur.Error v).map (fun e => { cur with Error := e })
        else if equalFold "Id" k then
          (decodeInt cur.Id v).map (fun i => { cur with Id := i })
        else Except.ok cur)
      { Result := { DownloadingVmNames := [], AvailableVMNames := [],
                    BootingVmNames := [], RunningVmNames := [] },
        Error := "", Id := 0 }
      j

/-- Modelled from the spec: `nan.NewExitCode(code, message).ToJson()` of the
`libnan` package, which is not among the sources; the spec gives the shape
`{code: int, message: string}`. -/
def exitCodeJson (code : Int) (message : String) : String :=
  "\x7b\"code\":" ++ formatInt code ++ ",\"message\":" ++ quoteJson message ++ "\x7d"

/-- The world in which the JSON calls behave as modelled above and HTTP POSTs
are answered by `server` (URL, content type, body). -/
def goWorld (server : String → String → String → Except String HttpResponse) : World :=
  { jsonMarshalRequest := fun r => Except.ok (encodeRequest r)
    httpPost := server
    jsonUnmarshalConfig := goUnmarshalConfig
    jsonUnmarshalString := goUnmarshalString
    jsonUnmarshalSuccess := goUnmarshalSuccess
    jsonUnmarshalGetList := goUnmarshalGetList
    jsonMarshalVmList := encodeVmList
    exitCodeToJson := exitCodeJson }

/-- A backend nobody listens on: every POST fails. -/
def refusingServer (_url _contentType _body : String) : Except String HttpResponse :=
  Except.error "dial tcp 127.0.0.1:1: connection refused"

/-- A backend at `http://iaas:8080` that answers the `Iaas.Download` request for
the VM "foo" with success and anything else with failure. -/
def downloadServer (url _contentType body : String) : Except String HttpResponse :=
  if url = "http://iaas:8080" ∧
      body = "\x7b\"id\":1,\"jsonrpc\":\"2.0\",\"method\":\"Iaas.Download\",\"params\":[\x7b\"vmname\":\"foo\"\x7d]\x7d"
  then Except.ok { Body := Except.ok "\x7b\"Result\":\x7b\"Success\":true\x7d\x7d" }
  else Except.ok { Body := Except.ok "\x7b\"Result\":\x7b\"Success\":false\x7d\x7d" }

/-! ## Lemmas on the reconciliation loop -/

theorem stringInSlice_iff (a : String) (list : List String) :
    stringInSlice a list = true ↔ a ∈ list := by
  induction list with
  | nil => simp [stringInSlice]
  | cons b list ih =>
    by_cases h : b = a
    · simp [stringInSlice, h]
    · have h2 : ¬ a = b := fun e => h e.symm
      simp [stringInSlice, h, h2, ih]

theorem hasPrefixChars_iff (s p : List Char) : hasPrefixChars s p = true ↔ p <+: s := by
  induction s generalizing p with
  | nil => cases p <;> simp [hasPrefixChars]
  | cons c cs ih =>
    cases p with
    | nil => simp [hasPrefixChars]
    | cons q qs =>
      by_cases h : c = q
      · simp [hasPrefixChars, h, ih]
      · have h2 : ¬ q = c := fun e => h e.symm
        simp [hasPrefixChars, h, h2]

theorem containsChars_iff (s sub : List Char) : containsChars s sub = true ↔ sub <:+: s := by
  induction s with
  | nil => simp [containsChars, hasPrefixChars_iff]
  | cons c cs ih =>
    rw [List.infix_cons_iff, ← ih, ← hasPrefixChars_iff]
    by_cases h : hasPrefixChars (c :: cs) sub = true <;> simp [containsChars, h]

theorem stringsContains_iff (s substr : String) :
    stringsContains s substr = true ↔ substr.data <:+: s.data :=
  containsChars_iff s.data substr.data

/-- An iteration on a name of the available list appends `recordFor` of that
name, whatever the loop variables held before. -/
theorem loopBody_vmList (res : GetListResult) (v : LoopVars) (vmName : String)
    (h : vmName ∈ res.AvailableVMNames) :
    (loopBody res v vmName).vmList = v.vmList ++ [recordFor res vmName] := by
  have ha : stringInSlice vmName res.AvailableVMNames = true :=
    (stringInSlice_iff _ _).2 h
  unfold loopBody recordFor
  by_cases hw : stringsContains vmName "windows" = true <;>
  by_cases hr : stringInSlice vmName res.RunningVmNames = true <;>
  by_cases hb : stringInSlice vmName res.BootingVmNames = true <;>
  by_cases hd : stringInSlice vmName res.DownloadingVmNames = true <;>
  simp [hw, hr, hb, hd, ha]

theorem foldl_loopBody_vmList (res : GetListResult) (names : List String) (v : LoopVars)
    (h : ∀ n ∈ names, n ∈ res.AvailableVMNames) :
    (names.foldl (loopBody res) v).vmList = v.vmList ++ names.map (recordFor res) := by
  induction names generalizing v with
  | nil => simp
  | cons n names ih =>
    have hn : n ∈ res.AvailableVMNames := h n (List.mem_cons_self _ _)
    have ht : ∀ m ∈ names, m ∈ res.AvailableVMNames :=
      fun m hm => h m (List.mem_cons_of_mem _ hm)
    rw [List.foldl_cons, ih _ ht, loopBody_vmList res v n hn]
    simp

/-- The loop is a map of `recordFor` over the available list. -/
theorem reconcile_eq_map (available running booting downloading : List String) :
    reconcile available running booting downloading =
      available.map (recordFor
        { DownloadingVmNames := downloading, AvailableVMNames := available,
          BootingVmNames := booting, RunningVmNames := running }) := by
  unfold reconcile reconcileLoop
  rw [foldl_loopBody_vmList _ _ _ (fun n hn => hn)]
  simp [LoopVars.zero]

/-- After an iteration on a name of the available list the `status` variable
holds the status of `recordFor`, whatever it held before. -/
theorem loopBody_status (res : GetListResult) (v : LoopVars) (vmName : String)
    (h : vmName ∈ res.AvailableVMNames) :
    (loopBody res v vmName).status = (recordFor res vmName).Status := by
  have ha : stringInSlice vmName res.AvailableVMNames = true :=
    (stringInSlice_iff _ _).2 h
  unfold loopBody recordFor
  by_cases hw : stringsContains vmName "windows" = true <;>
  by_cases hr : stringInSlice vmName res.RunningVmNames = true <;>
  by_cases hb : stringInSlice vmName res.BootingVmNames = true <;>
  by_cases hd : stringInSlice vmName res.DownloadingVmNames = true <;>
  simp [hw, hr, hb, hd, ha]

theorem reconcile_getElem? (available running booting downloading : List String)
    (i : Nat) (h : i < available.length) :
    (reconcile available running booting downloading)[i]? =
      some (recordFor
        { DownloadingVmNames := downloading, AvailableVMNames := available,
          BootingVmNames := booting, RunningVmNames := running } available[i]) := by
  rw [reconcile_eq_map, List.getElem?_map, List.getElem?_eq_getElem h]
  rfl

/-! ## Claims on the reconciliation loop -/

/-- C1: the record emitted for position `i` of `available` has status "running"
when the name is in `running`, else "booting" when it is in `booting`, and
"available" when it is in none of `running`, `booting`, `downloading`; and the
status the iteration leaves does not depend on what the loop variables held
before it (nothing carries over from the previous record). -/
theorem C1_status_first_match (available running booting downloading : List String)
    (i : Nat) (h : i < available.length) :
    ∃ r : VmInfo,
      (reconcile available running booting downloading)[i]? = some r ∧
      r.Name = available[i] ∧
      (available[i] ∈ running → r.Status = "running") ∧
      (available[i] ∉ running → available[i] ∈ booting → r.Status = "booting") ∧
      (available[i] ∉ running → available[i] ∉ booting → available[i] ∉ downloading →
        r.Status = "available") ∧
      (∀ v : LoopVars,
        (loopBody
          { DownloadingVmNames := downloading, AvailableVMNames := available,
            BootingVmNames := booting, RunningVmNames := running } v available[i]).status
          = r.Status) := by
  refine ⟨_, reconcile_getElem? available running booting downloading i h, rfl, ?_, ?_, ?_, ?_⟩
  · intro hr
    have := (stringInSlice_iff available[i] running).2 hr
    simp [recordFor, this]
  · intro hr hb
    have h1 : stringInSlice available[i] running = false := by
      simpa using (stringInSlice_iff available[i] running).not.2 hr
    have h2 := (stringInSlice_iff available[i] booting).2 hb
    simp [recordFor, h1, h2]
  · intro hr hb hd
    have h1 : stringInSlice available[i] running = false := by
      simpa using (stringInSlice_iff available[i] running).not.2 hr
    have h2 : stringInSlice available[i] booting = false := by
      simpa using (stringInSlice_iff available[i] booting).not.2 hb
    have h3 : stringInSlice available[i] downloading = false := by
      simpa using (stringInSlice_iff available[i] downloading).not.2 hd
    simp [recordFor, h1, h2, h3]
  · intro v
    exact loopBody_status _ v _ (List.getElem_mem h)

/-- C1 at `available = [vm1, vm2]`, `running = [vm1]`, `downloading = [vm1]`,
position 0: the name is in both `running` and `downloading`. -/
theorem C1_status_first_match_witness :
    ∃ r : VmInfo,
      (reconcile ["vm1", "vm2"] ["vm1"] [] ["vm1"])[0]? = some r ∧
      r.Name = "vm1" ∧
      ("vm1" ∈ ["vm1"] → r.Status = "running") ∧
      ("vm1" ∉ ["vm1"] → "vm1" ∈ ([] : List String) → r.Status = "booting") ∧
      ("vm1" ∉ ["vm1"] → "vm1" ∉ ([] : List String) → "vm1" ∉ ["vm1"] →
        r.Status = "available") ∧
      (∀ v : LoopVars,
        (loopBody
          { DownloadingVmNames := ["vm1"], AvailableVMNames := ["vm1", "vm2"],
            BootingVmNames := [], RunningVmNames := ["vm1"] } v "vm1").status
          = r.Status) :=
  C1_status_first_match ["vm1", "vm2"] ["vm1"] [] ["vm1"] 0 (by decide)

/-- C2: every emitted record whose name contains "windows" has icon "windows",
locked = false and display name "Windows Applications"; every other record has
icon "apps", locked = true and display name "Haptic". -/
theorem C2_presentation_from_name (available running booting downloading : List String)
    (r : VmInfo) (h : r ∈ reconcile available running booting downloading) :
    ("windows".data <:+: r.Name.data →
      r.Ico = "windows" ∧ r.Locked = false ∧ r.DisplayName = "Windows Applications") ∧
    (¬ "windows".data <:+: r.Name.data →
      r.Ico = "apps" ∧ r.Locked = true ∧ r.DisplayName = "Haptic") := by
  rw [reconcile_eq_map, List.mem_map] at h
  obtain ⟨n, _, rfl⟩ := h
  constructor
  · intro hw
    have := (stringsContains_iff n "windows").2 hw
    simp [recordFor, this]
  · intro hw
    have : stringsContains n "windows" = false := by
      simpa using (stringsContains_iff n "windows").not.2 hw
    simp [recordFor, this]

/-- C2 at the record emitted for the single available name "my-windows-7". -/
theorem C2_presentation_from_name_witness :
    ({ Ico := "windows", Name := "my-windows-7", DisplayName := "Windows Applications",
       Status := "available", Locked := false } : VmInfo)
      ∈ reconcile ["my-windows-7"] [] [] [] ∧
    "windows".data <:+: "my-windows-7".data ∧
    ({ Ico := "windows", Name := "my-windows-7", DisplayName := "Windows Applications",
       Status := "available", Locked := false } : VmInfo).Ico = "windows" ∧
    ({ Ico := "windows", Name := "my-windows-7", DisplayName := "Windows Applications",
       Status := "available", Locked := false } : VmInfo).Locked = false ∧
    ({ Ico := "windows", Name := "my-windows-7", DisplayName := "Windows Applications",
       Status := "available", Locked := false } : VmInfo).DisplayName
      = "Windows Applications" :=
  ⟨by decide, (stringsContains_iff "my-windows-7" "windows").1 (by decide),
   (C2_presentation_from_name ["my-windows-7"] [] [] []
      { Ico := "windows", Name := "my-windows-7", DisplayName := "Windows Applications",
        Status := "available", Locked := false } (by decide)).1
      ((stringsContains_iff "my-windows-7" "windows").1 (by decide))⟩

/-- C3: the names of the emitted records are the available list, element by
element; an empty available list gives no record; a name that is not in
`available` is the name of no record. -/
theorem C3_names_are_available (available running booting downloading : List String) :
    (reconcile available running booting downloading).map VmInfo.Name = available ∧
    reconcile [] running booting downloading = [] ∧
    (∀ n : String, n ∉ available →
      ∀ r ∈ reconcile available running booting downloading, r.Name ≠ n) := by
  have hmap : (reconcile available running booting downloading).map VmInfo.Name = available := by
    rw [reconcile_eq_map, List.map_map]
    conv_rhs => rw [← List.map_id available]
    rfl
  refine ⟨hmap, rfl, ?_⟩
  intro n hn r hr e
  apply hn
  rw [← hmap, ← e]
  exact List.mem_map_of_mem _ hr

/-- C3 at `available = [vm1]` with `running = [vm2]`: "vm2" is not emitted. -/
theorem C3_names_are_available_witness :
    (reconcile ["vm1"] ["vm2"] ["vm3"] []).map VmInfo.Name = ["vm1"] ∧
    reconcile [] ["vm2"] ["vm3"] [] = [] ∧
    (∀ r ∈ reconcile ["vm1"] ["vm2"] ["vm3"] [], r.Name ≠ "vm2") :=
  ⟨(C3_names_are_available ["vm1"] ["vm2"] ["vm3"] []).1,
   (C3_names_are_available ["vm1"] ["vm2"] ["vm3"] []).2.1,
   (C3_names_are_available ["vm1"] ["vm2"] ["vm3"] []).2.2 "vm2" (by decide)⟩

/-- C4 fails as stated: for `available = [vm1]`, `downloading = [vm1]` and
nothing running or booting, the one emitted record has status "download", and
no emitted record has status "downloading". -/
theorem C4_downloading_counterexample :
    "vm1" ∈ ["vm1"] ∧ "vm1" ∉ ([] : List String) ∧
    reconcile ["vm1"] [] [] ["vm1"] =
      [{ Ico := "apps", Name := "vm1", DisplayName := "Haptic",
         Status := "download", Locked := true }] ∧
    ¬ ∃ r ∈ reconcile ["vm1"] [] [] ["vm1"], r.Status = "downloading" := by
  decide

/-- C4 amended: the record emitted for a position of `available` whose name is
in `downloading` but in neither `running` nor `booting` has status "download";
and, for all four lists without any condition on them, every emitted status is
one of "running", "booting", "download", "available". -/
theorem C4_download_status (available running booting downloading : List String) :
    (∀ (i : Nat) (h : i < available.length),
      available[i] ∈ downloading → available[i] ∉ running → available[i] ∉ booting →
      ∃ r : VmInfo,
        (reconcile available running booting downloading)[i]? = some r ∧
        r.Name = available[i] ∧ r.Status = "download") ∧
    (∀ r ∈ reconcile available running booting downloading,
      r.Status = "running" ∨ r.Status = "booting" ∨ r.Status = "download" ∨
        r.Status = "available") := by
  constructor
  · intro i h hd hr hb
    refine ⟨_, reconcile_getElem? available running booting downloading i h, rfl, ?_⟩
    have h1 : stringInSlice available[i] running = false := by
      simpa using (stringInSlice_iff available[i] running).not.2 hr
    have h2 : stringInSlice available[i] booting = false := by
      simpa using (stringInSlice_iff available[i] booting).not.2 hb
    have h3 := (stringInSlice_iff available[i] downloading).2 hd
    simp [recordFor, h1, h2, h3]
  · intro r hmem
    rw [reconcile_eq_map, List.mem_map] at hmem
    obtain ⟨n, _, rfl⟩ := hmem
    unfold recordFor
    by_cases c1 : stringInSlice n running = true <;>
    by_cases c2 : stringInSlice n booting = true <;>
    by_cases c3 : stringInSlice n downloading = true <;>
    simp [c1, c2, c3]

/-- C4 amended, at `available = [vm1]`, `downloading = [vm1]` for the status
"download", and at `available = [vm1]` with the other three lists empty for the
bound on the emitted statuses. -/
theorem C4_download_status_witness :
    (∃ r : VmInfo,
      (reconcile ["vm1"] [] [] ["vm1"])[0]? = some r ∧
      r.Name = "vm1" ∧ r.Status = "download") ∧
    (∀ r ∈ reconcile ["vm1"] [] [] ["vm1"],
      r.Status = "running" ∨ r.Status = "booting" ∨ r.Status = "download" ∨
        r.Status = "available") ∧
    (∀ r ∈ reconcile ["vm1"] [] [] [],
      r.Status = "running" ∨ r.Status = "booting" ∨ r.Status = "download" ∨
        r.Status = "available") :=
  ⟨(C4_download_status ["vm1"] [] [] ["vm1"]).1 0 (by decide) (by decide) (by decide)
      (by decide),
   (C4_download_status ["vm1"] [] [] ["vm1"]).2,
   (C4_download_status ["vm1"] [] [] []).2⟩

/-- C5 fails as stated: on the scenario input the output is not a pair of
records whose first has icon "windows" and locked = false ("win-app1" does not
contain "windows"). -/
theorem C5_scenario_counterexample :
    ¬ ∃ r1 r2 : VmInfo,
      reconcile ["win-app1", "citrix-calc"] ["win-app1"] [] [] = [r1, r2] ∧
      r1.Name = "win-app1" ∧ r1.Status = "running" ∧ r1.Ico = "windows" ∧
        r1.Locked = false ∧
      r2.Name = "citrix-calc" ∧ r2.Status = "available" ∧ r2.Ico = "apps" ∧
        r2.Locked = true := by
  rintro ⟨r1, r2, h, -, -, hico, -⟩
  have e : reconcile ["win-app1", "citrix-calc"] ["win-app1"] [] [] =
      [⟨"apps", "win-app1", "Haptic", "running", true⟩,
       ⟨"apps", "citrix-calc", "Haptic", "available", true⟩] := by decide
  rw [e] at h
  injection h with h1 _
  subst h1
  exact absurd hico (by decide)

/-- C5 amended: on the scenario input the output is exactly two records, in
this order: "win-app1" with status "running", icon "apps", locked = true, and
"citrix-calc" with status "available", icon "apps", locked = true. -/
theorem C5_scenario :
    reconcile ["win-app1", "citrix-calc"] ["win-app1"] [] [] =
      [{ Ico := "apps", Name := "win-app1", DisplayName := "Haptic",
         Status := "running", Locked := true },
       { Ico := "apps", Name := "citrix-calc", DisplayName := "Haptic",
         Status := "available", Locked := true }] := by
  decide

/-- C6 fails as stated: with "vm1" twice in `available` the output has two
records named "vm1", not one. -/
theorem C6_duplicates_counterexample :
    ["vm1", "vm1"].dedup = ["vm1"] ∧
    (reconcile ["vm1", "vm1"] [] [] []).countP (fun r => r.Name = "vm1") = 2 := by
  decide

/-- C6 amended: the output has one record per position of `available`: the
number of records named `n` is the number of occurrences of `n` in
`available`; so when no name occurs twice in `available`, the output has
exactly one record for each name of `available`. -/
theorem C6_one_record_per_position (available running booting downloading : List String) :
    (∀ n : String,
      (reconcile available running booting downloading).countP (fun r => r.Name = n)
        = available.count n) ∧
    (available.Nodup → ∀ n ∈ available,
      (reconcile available running booting downloading).countP (fun r => r.Name = n) = 1) := by
  have hc : ∀ n : String,
      (reconcile available running booting downloading).countP (fun r => r.Name = n)
        = available.count n := by
    intro n
    rw [reconcile_eq_map, List.countP_map, List.count_eq_countP]
    apply List.countP_congr
    intro x _
    simp [recordFor]
  refine ⟨hc, ?_⟩
  intro hnd n hn
  rw [hc n]
  exact List.count_eq_one_of_mem hnd hn

/-- C6 amended, at `available = [vm1, vm2]`. -/
theorem C6_one_record_per_position_witness :
    ∀ n ∈ ["vm1", "vm2"],
      (reconcile ["vm1", "vm2"] ["vm2"] [] []).countP (fun r => r.Name = n) = 1 :=
  (C6_one_record_per_position ["vm1", "vm2"] ["vm2"] [] []).2 (by decide)

/-! ## Claims on the backend calls -/

/-- Whenever `jsonRpcRequest` returns to its caller, the error it returns is
nil: every failure path ends in `log.Fatalf`. -/
theorem jsonRpcRequest_returns_nil_error (w : World) (url method : String) (param : GoMap)
    (body : String) (err : Option String)
    (h : jsonRpcRequest w url method param = Outcome.returned (body, err)) : err = none := by
  unfold jsonRpcRequest at h
  cases hm : w.jsonMarshalRequest
      { jsonrpc := "2.0", method := method, id := 1, params := [param] } with
  | error e => simp [hm, bind, Outcome.bind, logFatalf, logPrintf, osExit] at h
  | ok data =>
    cases hp : w.httpPost url "application/json" data with
    | error e => simp [hm, hp, bind, Outcome.bind, logFatalf, logPrintf, osExit] at h
    | ok resp =>
      cases hb : resp.Body with
      | error e => simp [hm, hp, hb, bind, Outcome.bind, logFatalf, logPrintf, osExit] at h
      | ok b =>
        simp [hm, hp, hb, pure] at h
        exact h.2.symm

/-- When the backend answers and the answer decodes, `ListRunningVm` returns
the marshalled records of `reconcile` on the four decoded lists. -/
theorem ListRunningVm_returns_reconcile (w : World) (g : IaasConfig)
    (jsonParams data body : String) (resp : HttpResponse) (response : GetListResponse)
    (hm : w.jsonMarshalRequest
      { jsonrpc := "2.0", method := "Iaas.GetList", id := 1, params := [none] }
        = Except.ok data)
    (hp : w.httpPost (g.Url ++ ":" ++ g.Port) "application/json" data = Except.ok resp)
    (hb : resp.Body = Except.ok body)
    (hd : w.jsonUnmarshalGetList body = Except.ok response) :
    ListRunningVm w g jsonParams = Outcome.returned
      { outMsg := w.jsonMarshalVmList
          (reconcile response.Result.AvailableVMNames response.Result.RunningVmNames
            response.Result.BootingVmNames response.Result.DownloadingVmNames),
        err := none } := by
  unfold ListRunningVm jsonRpcRequest reconcile
  simp [hm, hp, hb, hd, bind, Outcome.bind, pure]

/-- C7 (what the code does): when the POST to the backend fails, or the
response body cannot be read, `jsonRpcRequest` terminates the process with
exit status 1, and so does `ListRunningVm`: neither returns to its caller. -/
theorem C7_post_failure_terminates (w : World) (g : IaasConfig) (jsonParams data e : String)
    (hm : w.jsonMarshalRequest
      { jsonrpc := "2.0", method := "Iaas.GetList", id := 1, params := [none] }
        = Except.ok data)
    (hp : w.httpPost (g.Url ++ ":" ++ g.Port) "application/json" data = Except.error e ∨
      ∃ resp, w.httpPost (g.Url ++ ":" ++ g.Port) "application/json" data = Except.ok resp ∧
        resp.Body = Except.error e) :
    jsonRpcRequest w (g.Url ++ ":" ++ g.Port) "Iaas.GetList" none = Outcome.exited 1 ∧
    ListRunningVm w g jsonParams = Outcome.exited 1 := by
  have h1 : jsonRpcRequest w (g.Url ++ ":" ++ g.Port) "Iaas.GetList" none
      = Outcome.exited 1 := by
    unfold jsonRpcRequest
    rcases hp with hp | ⟨resp, hp, hb⟩
    · simp [hm, hp, bind, Outcome.bind, logFatalf, logPrintf, osExit]
    · simp [hm, hp, hb, bind, Outcome.bind, logFatalf, logPrintf, osExit]
  refine ⟨h1, ?_⟩
  unfold ListRunningVm
  simp [h1, bind, Outcome.bind]

/-- C7 at the endpoint `http://127.0.0.1:1` with nothing listening. -/
theorem C7_post_failure_terminates_witness :
    jsonRpcRequest (goWorld refusingServer) ("http://127.0.0.1" ++ ":" ++ "1")
      "Iaas.GetList" none = Outcome.exited 1 ∧
    ListRunningVm (goWorld refusingServer) { Url := "http://127.0.0.1", Port := "1" } ""
      = Outcome.exited 1 :=
  C7_post_failure_terminates (goWorld refusingServer)
    { Url := "http://127.0.0.1", Port := "1" } ""
    "\x7b\"id\":1,\"jsonrpc\":\"2.0\",\"method\":\"Iaas.GetList\",\"params\":[null]\x7d"
    "dial tcp 127.0.0.1:1: connection refused" (by rfl) (Or.inl (by rfl))

/-- C8 (what the code does): when the configuration string does not unmarshal
into a `map[string]string`, `Configure` terminates the process with exit status
0; it does not return to its caller and stores nothing in its result. -/
theorem C8_malformed_config_exits (w : World) (g : IaasConfig) (jsonConfig outMsg e : String)
    (h : w.jsonUnmarshalConfig jsonConfig = Except.error e) :
    Configure w g jsonConfig outMsg = Outcome.exited 0 := by
  unfold Configure
  simp [h, bind, Outcome.bind, logPrintf, osExit]

/-- C8 at the configuration string `not json`. -/
theorem C8_malformed_config_exits_witness :
    Configure (goWorld refusingServer) { Url := "http://iaas", Port := "8080" } "not json" ""
      = Outcome.exited 0 :=
  C8_malformed_config_exits (goWorld refusingServer) { Url := "http://iaas", Port := "8080" }
    "not json" "" syntaxError (by rfl)

/-- C9 (what the code does): when the argument decodes as a JSON string,
`StopVm` panics on the assignment to the nil map `params`; no backend call is
made and nothing is returned. -/
theorem C9_stop_panics (w : World) (g : IaasConfig) (jsonParams vmName : String)
    (h : w.jsonUnmarshalString jsonParams = Except.ok vmName) :
    StopVm w g jsonParams = Outcome.panicked "assignment to entry in nil map" := by
  unfold StopVm
  simp [h, bind, Outcome.bind, mapAssign]

/-- C9 at the argument `"vm1"` (a JSON string). -/
theorem C9_stop_panics_witness :
    StopVm (goWorld refusingServer) { Url := "http://iaas", Port := "8080" } "\"vm1\""
      = Outcome.panicked "assignment to entry in nil map" :=
  C9_stop_panics (goWorld refusingServer) { Url := "http://iaas", Port := "8080" }
    "\"vm1\"" "vm1" (by rfl)

/-- C10: when the request with method `Iaas.Download` and the one parameter
mapping `vmname ↦ name` is posted to `Url:Port`, its response body is read, and
the body decodes into the Success shape, `DownloadVm` returns with the result
string "true" if the decoded `Success` is true and "false" otherwise; with the
JSON calls as modelled, the body `{"Result":{"Success":true}}` gives "true". -/
theorem C10_download_result :
    (∀ (w : World) (g : IaasConfig) (name data body : String) (resp : HttpResponse)
        (success : Bool),
      w.jsonMarshalRequest
        { jsonrpc := "2.0", method := "Iaas.Download", id := 1,
          params := [some [("vmname", name)]] } = Except.ok data →
      w.httpPost (g.Url ++ ":" ++ g.Port) "application/json" data = Except.ok resp →
      resp.Body = Except.ok body →
      w.jsonUnmarshalSuccess body = Except.ok success →
      DownloadVm w g name = Outcome.returned
        { outMsg := if success = true then "true" else "false", err := none }) ∧
    (∀ (server : String → String → String → Except String HttpResponse) (g : IaasConfig)
        (name : String),
      server (g.Url ++ ":" ++ g.Port) "application/json"
          (encodeRequest
            { jsonrpc := "2.0", method := "Iaas.Download", id := 1,
              params := [some [("vmname", name)]] })
        = Except.ok { Body := Except.ok "\x7b\"Result\":\x7b\"Success\":true\x7d\x7d" } →
      DownloadVm (goWorld server) g name = Outcome.returned { outMsg := "true", err := none }) := by
  have gen : ∀ (w : World) (g : IaasConfig) (name data body : String) (resp : HttpResponse)
      (success : Bool),
      w.jsonMarshalRequest
        { jsonrpc := "2.0", method := "Iaas.Download", id := 1,
          params := [some [("vmname", name)]] } = Except.ok data →
      w.httpPost (g.Url ++ ":" ++ g.Port) "application/json" data = Except.ok resp →
      resp.Body = Except.ok body →
      w.jsonUnmarshalSuccess body = Except.ok success →
      DownloadVm w g name = Outcome.returned
        { outMsg := if success = true then "true" else "false", err := none } := by
    intro w g name data body resp success hm hp hb hd
    unfold DownloadVm jsonRpcRequest
    cases success <;> simp [hm, hp, hb, hd, bind, Outcome.bind, pure]
  refine ⟨gen, ?_⟩
  intro server g name hs
  exact gen (goWorld server) g name _ _ _ true rfl hs rfl (by rfl)

/-- C10 at the name "foo" against a backend that answers exactly the
`Iaas.Download` request for "foo" with `Success: true`. -/
theorem C10_download_result_witness :
    DownloadVm (goWorld downloadServer) { Url := "http://iaas", Port := "8080" } "foo"
      = Outcome.returned { outMsg := "true", err := none } :=
  C10_download_result.2 downloadServer { Url := "http://iaas", Port := "8080" } "foo" (by rfl)

end PluginIaas
